import Mathlib

/-!
Shallow embedding of `src/Peano_from_deltasigma.py`: a Peano-arithmetic
kernel built from a difference operator Δ (`delta`) and a connection
operator Σ (`sigma`) over an inductive natural-number type with
constructors `Z` and `S`.
-/

namespace Peano

/-- The sum type `Sum = Union[Left[T], Right[T]]` from the source:
`Left` is the base-case tag, `Right` the inductive-case tag.  In the
source both tags wrap a payload of the same type (Δ maps `A → A ⊕ A`). -/
inductive Sum (T : Type) where
  | Left : T → Sum T
  | Right : T → Sum T
deriving DecidableEq

/-- The inductive natural-number type from the source: `Z` (zero) and
`S(pred)` (successor). -/
inductive Nat where
  | Z : Nat
  | S : Nat → Nat
deriving DecidableEq

/-- `delta(x, force_right=False)`: if `force_right` return `Right(x)`;
otherwise `Left(x)` when `x` is `Z`, else `Right(x)`. -/
def delta (x : Nat) (force_right : Bool) : Sum Nat :=
  if force_right then Sum.Right x
  else match x with
    | Nat.Z => Sum.Left x
    | _ => Sum.Right x

/-- `sigma(pair, op)`: applies `op` to the two components of `pair`. -/
def sigma {T : Type} (pair : T × T) (op : T → T → T) : T :=
  op pair.1 pair.2

/-- `zero()`: returns `Z()`. -/
def zero : Nat := Nat.Z

/-- `succ(n)`: returns `S(n)`. -/
def succ (n : Nat) : Nat := Nat.S n

/-- `from_int(n)`: `Z()` when `n <= 0`, else `S(from_int(n-1))`.
The Python `int` argument is embedded as `Int`. -/
def from_int (n : Int) : Nat :=
  if n ≤ 0 then Nat.Z
  else Nat.S (from_int (n - 1))
termination_by n.toNat
decreasing_by omega

/-- `S.__int__` / `Z.__int__`: the recursive conversion back to an
integer, `int(Z) = 0`, `int(S(n)) = 1 + int(n)`. -/
def value : Nat → Int
  | Nat.Z => 0
  | Nat.S n => 1 + value n

/-- `add(a, b)`: classify `b` with Δ; on `Left` return `a`; on `Right`
return `succ(add(a, b_pred))` where `b_pred = b.pred if isinstance(b, S)
else Z()`. -/
def add (a b : Nat) : Nat :=
  match h : delta b false with
  | Sum.Left _ => a
  | Sum.Right _ =>
      succ (add a (match b with | Nat.S p => p | Nat.Z => Nat.Z))
termination_by sizeOf b
decreasing_by
  cases b with
  | Z => simp [delta] at h
  | S p => simp

/-- `multiply(a, b)`: classify `b` with Δ; on `Left` return `Z()`; on
`Right` return `add(a, multiply(a, b_pred))`. -/
def multiply (a b : Nat) : Nat :=
  match h : delta b false with
  | Sum.Left _ => Nat.Z
  | Sum.Right _ =>
      add a (multiply a (match b with | Nat.S p => p | Nat.Z => Nat.Z))
termination_by sizeOf b
decreasing_by
  cases b with
  | Z => simp [delta] at h
  | S p => simp

/-- `is_zero(n)`: true iff `delta(n)` is a `Left`. -/
def is_zero (n : Nat) : Bool :=
  match delta n false with
  | Sum.Left _ => true
  | Sum.Right _ => false

/-- `is_even(n)`: `Z → True`; `S(Z) → False`; `S(S(m)) → is_even(m)`. -/
def is_even : Nat → Bool
  | Nat.Z => true
  | Nat.S Nat.Z => false
  | Nat.S (Nat.S m) => is_even m

end Peano

namespace Peano

lemma add_Z (a : Nat) : add a Nat.Z = a := by
  rw [add.eq_def]; simp [delta]

lemma add_S (a p : Nat) : add a (Nat.S p) = Nat.S (add a p) := by
  rw [add.eq_def]; simp [delta, succ]

lemma multiply_Z (a : Nat) : multiply a Nat.Z = Nat.Z := by
  rw [multiply.eq_def]; simp [delta]

lemma multiply_S (a p : Nat) :
    multiply a (Nat.S p) = add a (multiply a p) := by
  rw [multiply.eq_def]; simp [delta]

lemma from_int_nonpos {n : Int} (h : n ≤ 0) : from_int n = Nat.Z := by
  rw [from_int.eq_def]; simp [h]

lemma from_int_pos {n : Int} (h : 0 < n) :
    from_int n = Nat.S (from_int (n - 1)) := by
  rw [from_int.eq_def]
  simp [show ¬ n ≤ 0 by omega]

lemma value_nonneg (n : Nat) : 0 ≤ value n := by
  induction n with
  | Z => simp [value]
  | S m ih => simp [value]; omega

lemma value_add (a b : Nat) : value (add a b) = value a + value b := by
  induction b with
  | Z => simp [add_Z, value]
  | S p ih => simp [add_S, value, ih]; ring

lemma value_multiply (a b : Nat) :
    value (multiply a b) = value a * value b := by
  induction b with
  | Z => simp [multiply_Z, value]
  | S p ih => simp [multiply_S, value_add, value, ih]; ring

lemma value_from_int_ofNat (m : ℕ) : value (from_int (m : Int)) = m := by
  induction m with
  | zero => simp [from_int_nonpos, value]
  | succ k ih =>
      rw [from_int_pos (by positivity)]
      push_cast
      simp only [value]
      rw [show ((k : Int) + 1 - 1) = (k : Int) by ring, ih]
      ring

lemma is_even_succ_eq (n : Nat) : is_even (Nat.S n) = !(is_even n) := by
  induction n with
  | Z => simp [is_even]
  | S m ih => simp [is_even, ih]

lemma is_even_iff (n : Nat) : is_even n = true ↔ value n % 2 = 0 := by
  induction n with
  | Z => simp [is_even, value]
  | S m ih =>
      rw [is_even_succ_eq]
      simp only [value]
      rcases h : is_even m with hf | ht
      · rw [h] at ih; simp at ih ⊢; omega
      · rw [h] at ih; simp at ih ⊢; omega

lemma is_zero_iff (n : Nat) : is_zero n = true ↔ value n = 0 := by
  cases n with
  | Z => simp [is_zero, delta, value]
  | S m =>
      have := value_nonneg m
      simp [is_zero, delta, value]
      omega

lemma zero_add_struct (b : Nat) : add Nat.Z b = b := by
  induction b with
  | Z => exact add_Z _
  | S p ih => rw [add_S, ih]

end Peano

namespace Peano

/-- C1: For every pair of `Nat` values `a` and `b`, `value(add(a, b))`
equals `value(a) + value(b)`, where `value` is the recursive conversion
`value(Z) = 0`, `value(S(n)) = 1 + value(n)`. -/
theorem claim_C1_add_value (a b : Nat) :
    value (add a b) = value a + value b :=
  value_add a b

/-- C2: For every pair of `Nat` values `a` and `b`, `value(multiply(a, b))`
equals `value(a) * value(b)`; in particular, for every `Nat` `a`,
`multiply(a, zero())` has value `0`. -/
theorem claim_C2_multiply_value :
    (∀ a b : Nat, value (multiply a b) = value a * value b) ∧
    (∀ a : Nat, value (multiply a zero) = 0) := by
  refine ⟨value_multiply, fun a => ?_⟩
  simp [zero, multiply_Z, value]

/-- C3: `delta(Z)` returns the `Left` (base-case) tag wrapping its input;
`delta(S(n))` for every `Nat` `n` returns the `Right` (inductive-case) tag
wrapping its input; and `delta(x, force_right=True)` returns the `Right`
tag wrapping `x` for every input `x`, including `Z`. -/
theorem claim_C3_delta_classification :
    delta Nat.Z false = Sum.Left Nat.Z ∧
    (∀ n : Nat, delta (Nat.S n) false = Sum.Right (Nat.S n)) ∧
    (∀ x : Nat, delta x true = Sum.Right x) := by
  refine ⟨rfl, fun n => rfl, fun x => ?_⟩
  simp [delta]

/-- C4: For every `Nat` `n`, `is_even(n)` is true iff `value(n)` is
divisible by 2; and the computation follows the schema `Z → true`,
`S(Z) → false`, `S(S(m)) →` recurse on `m`. -/
theorem claim_C4_is_even :
    (∀ n : Nat, is_even n = true ↔ value n % 2 = 0) ∧
    is_even Nat.Z = true ∧
    is_even (Nat.S Nat.Z) = false ∧
    (∀ m : Nat, is_even (Nat.S (Nat.S m)) = is_even m) :=
  ⟨is_even_iff, rfl, rfl, fun _ => rfl⟩

/-- C5: For every non-negative integer `k`, `value(from_int(k))` equals
`k`; and for every negative integer `k`, `from_int(k)` returns the zero
`Nat` (structurally `Z`). -/
theorem claim_C5_from_int (k : Int) :
    (0 ≤ k → value (from_int k) = k) ∧ (k < 0 → from_int k = Nat.Z) := by
  constructor
  · intro h
    have := value_from_int_ofNat k.toNat
    rwa [Int.toNat_of_nonneg h] at this
  · intro h
    exact from_int_nonpos (by omega)

/-- Witness for C5 at `k = 5` and `k = -3`. -/
theorem claim_C5_from_int_witness :
    ((0 : Int) ≤ 5 ∧ value (from_int 5) = 5) ∧
    ((-3 : Int) < 0 ∧ from_int (-3) = Nat.Z) :=
  ⟨⟨by norm_num, (claim_C5_from_int 5).1 (by norm_num)⟩,
   ⟨by norm_num, (claim_C5_from_int (-3)).2 (by norm_num)⟩⟩

/-- C6: For every `Nat` `a`, `add(a, zero())` returns `a` unchanged —
the result is structurally identical to the first operand. -/
theorem claim_C6_add_zero_structural (a : Nat) : add a zero = a :=
  add_Z a

/-- C7: `add` is commutative and associative at the value level: for
every `Nat` `a`, `b`, `c`, `value(add(a, b)) = value(add(b, a))` and
`value(add(add(a, b), c)) = value(add(a, add(b, c)))`. -/
theorem claim_C7_add_comm_assoc (a b c : Nat) :
    value (add a b) = value (add b a) ∧
    value (add (add a b) c) = value (add a (add b c)) := by
  constructor
  · rw [value_add, value_add]; ring
  · rw [value_add, value_add, value_add, value_add]; ring

/-- C8: For every `Nat` `n`, `is_zero(n)` returns true iff `value(n) = 0`;
equivalently, `is_zero(n)` is true exactly when `delta(n)` yields the
`Left` (base-case) tag. -/
theorem claim_C8_is_zero (n : Nat) :
    (is_zero n = true ↔ value n = 0) ∧
    (is_zero n = true ↔ ∃ y : Nat, delta n false = Sum.Left y) := by
  refine ⟨is_zero_iff n, ?_⟩
  cases n with
  | Z => simp [is_zero, delta]
  | S m => simp [is_zero, delta]

/-- C9: Implicit left identity — for every `Nat` `b`, `add(zero(), b)`
is structurally equal to `b`. -/
theorem claim_C9_zero_add_structural (b : Nat) : add zero b = b :=
  zero_add_struct b

/-- C10: Implicit parity alternation — for every `Nat` `n`,
`is_even(succ(n))` equals the negation of `is_even(n)`. -/
theorem claim_C10_is_even_succ (n : Nat) :
    is_even (succ n) = !(is_even n) :=
  is_even_succ_eq n

end Peano
